import Mathlib

/-!
Verification development for the warehouse acceptance bot (`src/botv3.py`).

The Python program is shallowly embedded: the Google-Sheets worksheet is a
list of rows (lists of cell strings), the per-user aiogram FSM is an explicit
state machine, and every fallible remote call is made explicit.  Strings that
the program manipulates character by character (`lstrip`, `int(...)`,
`"%04d"` formatting, `split("|")`) are modelled over `List Char`.
-/

namespace Botv3

/-! ## Decimal digits: `str(n)`, `int(s)` and zero padding

Models Python's rendering of a natural number (`str`, and the `%0Nd` format
specifier) and parsing (`int`).  `int()` also accepts surrounding whitespace
and underscores between digits; those forms never occur in the cells this
program writes nor in any input considered below, so they are not modelled. -/

/-- The character of a decimal digit `d < 10`. -/
def digitChar (d : Nat) : Char := Char.ofNat (48 + d)

/-- Is `c` an ASCII decimal digit? -/
def isDig (c : Char) : Bool := 48 ≤ c.toNat && c.toNat ≤ 57

/-- Decimal digits with explicit fuel, so that the kernel can evaluate the
definition; `fuel ≥ n` always suffices. -/
def natDigitsF : Nat → Nat → List Char
  | 0, n => [digitChar n]
  | fuel + 1, n =>
    if n < 10 then [digitChar n]
    else natDigitsF fuel (n / 10) ++ [digitChar (n % 10)]

/-- Decimal digits of `n`, most significant first — Python's `str(n)`. -/
def natDigits (n : Nat) : List Char := natDigitsF n n

theorem natDigitsF_congr :
    ∀ f g n : Nat, n ≤ f → n ≤ g → natDigitsF f n = natDigitsF g n := by
  intro f
  induction f with
  | zero =>
    intro g n hf _
    interval_cases n
    rcases g with _ | g
    · rfl
    · rfl
  | succ f ih =>
    intro g n hf hg
    rcases g with _ | g
    · interval_cases n
      rfl
    · show (if n < 10 then [digitChar n] else natDigitsF f (n / 10) ++ [digitChar (n % 10)])
        = (if n < 10 then [digitChar n] else natDigitsF g (n / 10) ++ [digitChar (n % 10)])
      split
      · rfl
      · next h =>
        rw [ih g (n / 10) (by omega) (by omega)]

theorem natDigits_unfold (n : Nat) :
    natDigits n = if n < 10 then [digitChar n] else natDigits (n / 10) ++ [digitChar (n % 10)] := by
  show natDigitsF n n = _
  rcases n with _ | m
  · rfl
  · show (if m + 1 < 10 then [digitChar (m + 1)]
        else natDigitsF m ((m + 1) / 10) ++ [digitChar ((m + 1) % 10)]) = _
    split
    · rfl
    · next h =>
      rw [natDigitsF_congr m ((m + 1) / 10) ((m + 1) / 10) (by omega) (by omega)]
      rfl

/-- Numeric value accumulated over a digit string (the usual left fold). -/
def digitsVal (s : List Char) : Nat :=
  s.foldl (fun a c => a * 10 + (c.toNat - 48)) 0

/-- Python `int(s)` restricted to an all-digit string: `some` value, or
`none` when `int` would raise `ValueError`. -/
def pyNatOfDigits (s : List Char) : Option Nat :=
  if s ≠ [] ∧ s.all isDig then some (digitsVal s) else none

/-- Python `int(s)` with an optional single leading sign. -/
def pyIntOfChars (s : List Char) : Option Int :=
  match s with
  | [] => none
  | c :: r =>
    if c = '-' then (pyNatOfDigits r).map (fun n => -(n : Int))
    else if c = '+' then (pyNatOfDigits r).map (fun n => (n : Int))
    else (pyNatOfDigits (c :: r)).map (fun n => (n : Int))

/-- Python `"%0{w}d" % n` for a natural number: `str(n)` left-padded with
zeros to width `w`. -/
def padTo (w : Nat) (n : Nat) : List Char :=
  List.replicate (w - (natDigits n).length) '0' ++ natDigits n

theorem natDigits_ne_nil (n : Nat) : natDigits n ≠ [] := by
  rw [natDigits_unfold]
  split
  · simp
  · simp

theorem toNat_digitChar (d : Nat) (h : d < 10) : (digitChar d).toNat = 48 + d := by
  interval_cases d <;> rfl

theorem isDig_digitChar (d : Nat) (h : d < 10) : isDig (digitChar d) = true := by
  interval_cases d <;> rfl

theorem all_isDig_natDigits (n : Nat) : (natDigits n).all isDig = true := by
  induction n using Nat.strong_induction_on with
  | _ n ih =>
    rw [natDigits_unfold]
    split
    · next h => simp [isDig_digitChar n h]
    · next h =>
      rw [List.all_append]
      have h1 := ih (n / 10) (Nat.div_lt_self (by omega) (by omega))
      have h2 := isDig_digitChar (n % 10) (Nat.mod_lt _ (by omega))
      simp [h1, h2]

theorem foldl_natDigits (n : Nat) :
    ∀ a, (natDigits n).foldl (fun a c => a * 10 + (c.toNat - 48)) a
      = a * 10 ^ (natDigits n).length + n := by
  induction n using Nat.strong_induction_on with
  | _ n ih =>
    intro a
    rw [natDigits_unfold]
    split
    · next h =>
      simp [List.foldl, toNat_digitChar n h]
    · next h =>
      rw [List.foldl_append, ih (n / 10) (Nat.div_lt_self (by omega) (by omega)) a]
      simp only [List.foldl, List.length_append, List.length_singleton]
      rw [toNat_digitChar (n % 10) (Nat.mod_lt _ (by omega))]
      rw [pow_succ]
      have hdm := Nat.div_add_mod n 10
      ring_nf
      omega

theorem digitsVal_natDigits (n : Nat) : digitsVal (natDigits n) = n := by
  have := foldl_natDigits n 0
  simpa [digitsVal] using this

theorem foldl_zeros (k : Nat) :
    (List.replicate k '0').foldl (fun a c => a * 10 + (c.toNat - 48)) 0 = 0 := by
  induction k with
  | zero => rfl
  | succ k ih => simpa [List.replicate_succ, List.foldl] using ih

theorem digitsVal_padTo (w n : Nat) : digitsVal (padTo w n) = n := by
  unfold padTo digitsVal
  rw [List.foldl_append, foldl_zeros]
  exact digitsVal_natDigits n

theorem all_isDig_zeros (k : Nat) : (List.replicate k '0').all isDig = true := by
  induction k with
  | zero => rfl
  | succ k ih => rw [List.replicate_succ, List.all_cons, ih]; rfl

theorem all_isDig_padTo (w n : Nat) : (padTo w n).all isDig = true := by
  unfold padTo
  rw [List.all_append, all_isDig_zeros, all_isDig_natDigits n]
  rfl

theorem padTo_ne_nil (w n : Nat) : padTo w n ≠ [] := by
  unfold padTo
  intro h
  rcases List.append_eq_nil.mp h with ⟨-, h2⟩
  exact natDigits_ne_nil n h2

theorem pyNatOfDigits_padTo (w n : Nat) : pyNatOfDigits (padTo w n) = some n := by
  unfold pyNatOfDigits
  rw [if_pos ⟨padTo_ne_nil w n, all_isDig_padTo w n⟩, digitsVal_padTo]

theorem isDig_ne_sign {c : Char} (h : isDig c = true) : c ≠ '-' ∧ c ≠ '+' := by
  unfold isDig at h
  constructor <;> rintro rfl <;> simp_all

theorem head_padTo_isDig (w n : Nat) :
    ∀ c rest, padTo w n = c :: rest → isDig c = true := by
  intro c rest h
  have := all_isDig_padTo w n
  rw [h] at this
  simp only [List.all_cons, Bool.and_eq_true] at this
  exact this.1

theorem pyIntOfChars_padTo (w n : Nat) : pyIntOfChars (padTo w n) = some (n : Int) := by
  rcases hp : padTo w n with _ | ⟨c, rest⟩
  · exact absurd hp (padTo_ne_nil w n)
  · have hd := head_padTo_isDig w n c rest hp
    rcases isDig_ne_sign hd with ⟨h1, h2⟩
    show pyIntOfChars (c :: rest) = some (n : Int)
    simp only [pyIntOfChars]
    rw [if_neg h1, if_neg h2, ← hp, pyNatOfDigits_padTo]
    rfl

/-! ## Box identifier generation — `GSHelper._next_box_id` / `add_box`

The BoxID column (column A below the header row) is modelled as the list of
its cell contents, each a `List Char`. -/

/-- `last.lstrip("B")`: remove every leading `'B'`. -/
def lstripB (s : List Char) : List Char := s.dropWhile (fun c => c = 'B')

/-- `f"B{n:04d}"` for a non-negative count, and the canonical shape of every
identifier this program assigns. -/
def fmtBoxId (n : Nat) : List Char := 'B' :: padTo 4 n

/-- `f"B{n:04d}"` for a possibly negative `int` (Python places the sign
before the zero padding, total width 4). -/
def fmtBoxIdInt (n : Int) : List Char :=
  if 0 ≤ n then fmtBoxId n.toNat
  else 'B' :: '-' :: List.replicate (3 - (natDigits n.natAbs).length) '0' ++ natDigits n.natAbs

/-- `GSHelper._next_box_id`: scan the BoxID column after the header; on an
empty column, or a last cell that is empty or does not start with `"B"`,
restart at `"B0001"`; otherwise increment the integer left after stripping
leading `B`s, falling back to `column length + 1` when `int()` raises. -/
def nextBoxId (vals : List (List Char)) : List Char :=
  match vals.getLast? with
  | none => fmtBoxId 1
  | some last =>
    match last with
    | 'B' :: _ =>
      match pyIntOfChars (lstripB last) with
      | some n => fmtBoxIdInt (n + 1)
      | none => fmtBoxId (vals.length + 1)
    | _ => fmtBoxId 1

/-- The BoxID column after `k` successful `add_box` calls starting from an
empty ledger: each call appends the id computed by `_next_box_id`. -/
def ledgerIdsAfter : Nat → List (List Char)
  | 0 => []
  | k + 1 => ledgerIdsAfter k ++ [nextBoxId (ledgerIdsAfter k)]

theorem lstripB_fmtBoxId (n : Nat) : lstripB (fmtBoxId n) = padTo 4 n := by
  have step1 : lstripB (fmtBoxId n) = List.dropWhile (fun x => decide (x = 'B')) (padTo 4 n) := by
    unfold lstripB fmtBoxId
    rw [List.dropWhile_cons]
    simp
  rw [step1]
  rcases hp : padTo 4 n with _ | ⟨c, rest⟩
  · exact absurd hp (padTo_ne_nil 4 n)
  · have hd := head_padTo_isDig 4 n c rest hp
    have hcB : decide (c = 'B') = false := by
      simp only [decide_eq_false_iff_not]
      rintro rfl
      simp [isDig] at hd
    rw [List.dropWhile_cons]
    simp [hcB]

theorem nextBoxId_of_last_fmt (vals : List (List Char)) (n : Nat)
    (h : vals.getLast? = some (fmtBoxId n)) : nextBoxId vals = fmtBoxId (n + 1) := by
  unfold nextBoxId
  rw [h]
  show (match fmtBoxId n with
    | 'B' :: _ =>
      match pyIntOfChars (lstripB (fmtBoxId n)) with
      | some n => fmtBoxIdInt (n + 1)
      | none => fmtBoxId (vals.length + 1)
    | _ => fmtBoxId 1) = fmtBoxId (n + 1)
  rw [show fmtBoxId n = 'B' :: padTo 4 n from rfl]
  simp only [← show fmtBoxId n = 'B' :: padTo 4 n from rfl, lstripB_fmtBoxId,
    pyIntOfChars_padTo]
  show fmtBoxIdInt ((n : Int) + 1) = fmtBoxId (n + 1)
  unfold fmtBoxIdInt
  rw [if_pos (by omega)]
  norm_num

theorem fmtBoxId_injective : Function.Injective fmtBoxId := by
  intro a b hab
  have : pyNatOfDigits (padTo 4 a) = pyNatOfDigits (padTo 4 b) := by
    unfold fmtBoxId at hab
    injection hab with _ h
    rw [h]
  rw [pyNatOfDigits_padTo, pyNatOfDigits_padTo] at this
  exact Option.some_injective _ this

theorem getLast?_map_range_fmt (k : Nat) :
    ((List.range (k + 1)).map (fun i => fmtBoxId (i + 1))).getLast? = some (fmtBoxId (k + 1)) := by
  rw [List.range_succ, List.map_append, List.map_singleton, List.getLast?_concat]

theorem ledgerIdsAfter_eq (k : Nat) :
    ledgerIdsAfter k = (List.range k).map (fun i => fmtBoxId (i + 1)) := by
  induction k with
  | zero => rfl
  | succ k ih =>
    show ledgerIdsAfter k ++ [nextBoxId (ledgerIdsAfter k)] = _
    rw [List.range_succ, List.map_append, ih]
    congr 1
    rcases k with _ | k'
    · rfl
    · rw [nextBoxId_of_last_fmt _ (k' + 1) (getLast?_map_range_fmt k')]
      rfl

theorem nextBoxId_ledgerIdsAfter (k : Nat) :
    nextBoxId (ledgerIdsAfter k) = fmtBoxId (k + 1) := by
  rcases k with _ | k'
  · rfl
  · rw [ledgerIdsAfter_eq]
    exact nextBoxId_of_last_fmt _ (k' + 1) (getLast?_map_range_fmt k')

/-- C1 (amended): along any sequence of successful creations on a ledger
written only by `add_box`, the `k`-th assigned identifier is `B` followed by
the counter `k` zero-padded to (at least) four digits, each numeric suffix
exactly one more than the previous, and no identifier is ever repeated. -/
theorem C1_sequential_creation_ids (k : Nat) :
    ledgerIdsAfter k = (List.range k).map (fun i => fmtBoxId (i + 1)) ∧
    nextBoxId (ledgerIdsAfter k) = fmtBoxId (k + 1) ∧
    (ledgerIdsAfter k).Nodup ∧
    nextBoxId (ledgerIdsAfter k) ∉ ledgerIdsAfter k := by
  have heq := ledgerIdsAfter_eq k
  have hnext := nextBoxId_ledgerIdsAfter k
  have hf : Function.Injective (fun i : Nat => fmtBoxId (i + 1)) := by
    intro a b hab
    have := fmtBoxId_injective hab
    omega
  refine ⟨heq, hnext, ?_, ?_⟩
  · rw [heq]
    exact (List.nodup_range k).map hf
  · rw [hnext, heq]
    intro hmem
    obtain ⟨i, hi, hfi⟩ := List.mem_map.mp hmem
    have h2 := fmtBoxId_injective hfi
    have h3 := List.mem_range.mp hi
    omega

/-- C1 (counterexample): the claim promises a fresh, incremented identifier
"regardless of the contents of the last scanned identifier cell".  If the
last cell does not start with `B` (here `"X"`), `_next_box_id` restarts at
`"B0001"`, an identifier the ledger already contains. -/
theorem C1_counterexample :
    nextBoxId [['B', '0', '0', '0', '1'], ['X']] = ['B', '0', '0', '0', '1'] ∧
    ['B', '0', '0', '0', '1'] ∈ [['B', '0', '0', '0', '1'], ['X']] := by
  constructor
  · decide
  · simp

/-! ## Membership lists and role resolution

`_read_json_cell` returns the JSON-decoded contents of the `B` cell next to
the `COLLECTORS` / `WORKERS` label, `[]` when the cell is empty, and — the
crucial behaviour for C2 — `[]` whenever anything in the `try` block raises
(worksheet lookup failure, cell read failure, or a JSON decode error).

Decoded JSON values are modelled by `PyVal` (floats never occur in the
cells this program writes and are not modelled). -/

inductive PyVal where
  | pint (n : Int)
  | pstr (s : String)
  | pdict (kv : List (String × PyVal))
  | pnone

/-- Python `int(x)` on a decoded JSON value: an `int` is returned as is, a
string is parsed, and `int(None)` / `int({...})` raise (`none`). -/
def pyToInt : PyVal → Option Int
  | .pint n => some n
  | .pstr s => pyIntOfChars s.data
  | .pdict _ => none
  | .pnone => none

/-- `GSHelper._read_json_cell`: either the decoded list, or `[]` when the
underlying read raised — the `except Exception: return []` branch. -/
def readJsonCell (fetch : Except Unit (List PyVal)) : List PyVal :=
  match fetch with
  | .ok l => l
  | .error _ => []

/-- The body of `get_workers`' comprehension `[int(x) for x in arr]`: the
whole conversion succeeds, or the first failure raises. -/
def intListAll : List PyVal → Option (List Int)
  | [] => some []
  | x :: xs =>
    match pyToInt x with
    | none => none
    | some n =>
      match intListAll xs with
      | none => none
      | some l => some (n :: l)

/-- `GSHelper.get_workers`: one bad entry makes the comprehension raise and
the `except` branch returns the empty list. -/
def get_workers (arr : List PyVal) : List Int :=
  match intListAll arr with
  | some l => l
  | none => []

/-- One iteration of `get_collectors`' loop: `(int(it.get("tgid")), it.get("name",""))`
for a dict entry, `none` when the `try` body raises (non-dict entry, missing
or unconvertible `tgid`).  A non-string `name` value never occurs in cells
this program writes and is modelled as the default `""`. -/
def collectorEntry : PyVal → Option (Int × String)
  | .pdict kv =>
    match pyToInt ((kv.lookup "tgid").getD .pnone) with
    | some n =>
      some (n, match kv.lookup "name" with
               | some (.pstr s) => s
               | _ => "")
    | none => none
  | _ => none

/-- `GSHelper.get_collectors`: per-entry `try/except: continue`. -/
def get_collectors : List PyVal → List (Int × String)
  | [] => []
  | x :: xs =>
    match collectorEntry x with
    | some p => p :: get_collectors xs
    | none => get_collectors xs

/-- `get_role`, with the two metadata reads explicit: each fetch either
yields the decoded list or signals the raised exception that
`_read_json_cell` swallows. -/
def get_role (admins : List Int) (workersFetch collectorsFetch : Except Unit (List PyVal))
    (uid : Int) : String :=
  if uid ∈ admins then "admin"
  else if uid ∈ get_workers (readJsonCell workersFetch) then "worker"
  else if uid ∈ (get_collectors (readJsonCell collectorsFetch)).map Prod.fst then "collector"
  else "unknown"

theorem get_workers_of_bad_elem (xs ys : List PyVal) (b : PyVal)
    (hb : pyToInt b = none) : get_workers (xs ++ b :: ys) = [] := by
  have : intListAll (xs ++ b :: ys) = none := by
    induction xs with
    | nil => simp [intListAll, hb]
    | cons x xs ih =>
      show intListAll (x :: (xs ++ b :: ys)) = none
      unfold intListAll
      rw [ih]
      rcases pyToInt x with _ | n
      · rfl
      · rfl
  unfold get_workers
  rw [this]

theorem get_collectors_cons_none {x : PyVal} (l : List PyVal) (h : collectorEntry x = none) :
    get_collectors (x :: l) = get_collectors l := by
  show (match collectorEntry x with
        | some p => p :: get_collectors l
        | none => get_collectors l) = _
  rw [h]

theorem get_collectors_cons_some {x : PyVal} {p : Int × String} (l : List PyVal)
    (h : collectorEntry x = some p) :
    get_collectors (x :: l) = p :: get_collectors l := by
  show (match collectorEntry x with
        | some p => p :: get_collectors l
        | none => get_collectors l) = _
  rw [h]

theorem get_collectors_append (xs ys : List PyVal) :
    get_collectors (xs ++ ys) = get_collectors xs ++ get_collectors ys := by
  induction xs with
  | nil => rfl
  | cons x xs ih =>
    rw [List.cons_append]
    rcases h : collectorEntry x with _ | p
    · rw [get_collectors_cons_none _ h, get_collectors_cons_none _ h, ih]
    · rw [get_collectors_cons_some _ h, get_collectors_cons_some _ h, ih, List.cons_append]

/-- C10: membership-list decoding is asymmetric.  A single entry that
`int()` rejects empties the whole decoded workers list — so every identity,
including the validly stored workers, then resolves as a non-worker — while
`get_collectors` skips only the malformed entry and keeps every well-formed
`(tgid, name)` pair around it. -/
theorem C10_membership_read_asymmetry (xs ys us vs : List PyVal) (b b' : PyVal)
    (hb : pyToInt b = none) (hb' : collectorEntry b' = none) :
    get_workers (xs ++ b :: ys) = [] ∧
    (∀ uid admins colFetch, get_role admins (Except.ok (xs ++ b :: ys)) colFetch uid ≠ "worker") ∧
    get_collectors (us ++ b' :: vs) = get_collectors us ++ get_collectors vs := by
  have hw := get_workers_of_bad_elem xs ys b hb
  refine ⟨hw, ?_, ?_⟩
  · intro uid admins colFetch
    unfold get_role readJsonCell
    rw [hw]
    split
    · simp
    · rw [if_neg (by simp)]
      split
      · simp
      · simp
  · rw [get_collectors_append, get_collectors_cons_none _ hb']

/-- C10 witness at a concrete ledger state: workers cell `[1, "x", 2]`
decodes to no workers at all, and user `1` — validly stored — is not
resolved as a worker; collectors cell with the same shape keeps both good
entries. -/
theorem C10_membership_read_asymmetry_witness :
    get_workers ([PyVal.pint 1] ++ PyVal.pstr "x" :: [PyVal.pint 2]) = [] ∧
    (∀ uid admins colFetch,
      get_role admins (Except.ok ([PyVal.pint 1] ++ PyVal.pstr "x" :: [PyVal.pint 2]))
        colFetch uid ≠ "worker") ∧
    get_collectors ([PyVal.pdict [("tgid", .pint 1), ("name", .pstr "Anna")]]
        ++ PyVal.pstr "x" :: [PyVal.pdict [("tgid", .pint 2), ("name", .pstr "Vera")]])
      = get_collectors [PyVal.pdict [("tgid", .pint 1), ("name", .pstr "Anna")]]
        ++ get_collectors [PyVal.pdict [("tgid", .pint 2), ("name", .pstr "Vera")]] :=
  C10_membership_read_asymmetry
    [.pint 1] [.pint 2]
    [.pdict [("tgid", .pint 1), ("name", .pstr "Anna")]]
    [.pdict [("tgid", .pint 2), ("name", .pstr "Vera")]]
    (.pstr "x") (.pstr "x") (by decide) (by decide)

/-- C2: the code swallows ledger read failures instead of propagating them.
User `7` is stored in the `WORKERS` cell, so a successful read resolves the
role `worker`; when the read raises, `_read_json_cell` returns `[]` and
`get_role` silently answers `unknown` — the claim (and §4.1/§9 of the spec)
requires the error to propagate instead. -/
theorem C2_ledger_failure_silently_unknown :
    get_role [] (Except.ok [.pint 7]) (Except.ok []) 7 = "worker" ∧
    get_role [] (Except.error ()) (Except.ok []) 7 = "unknown" := by
  constructor
  · decide
  · decide

/-! ## Photo reference cell — `"|".join(...)` and `.split("|")`

`add_box` stores the photo file ids joined with `"|"`; `btn_pending` (and
`btn_my_boxes`) read them back with
`r[2].split("|") if len(r) > 2 and r[2] else []`. -/

/-- Python `s.split(sep)` for a single-character separator, over the
character list: always returns at least one (possibly empty) piece. -/
def splitSep (sep : Char) : List Char → List (List Char)
  | [] => [[]]
  | c :: cs =>
    match splitSep sep cs with
    | [] => [[]]
    | h :: t => if c = sep then [] :: h :: t else (c :: h) :: t

/-- Python `sep.join(xs)` over character lists. -/
def joinSep (sep : Char) : List (List Char) → List Char
  | [] => []
  | [x] => x
  | x :: y :: t => x ++ sep :: joinSep sep (y :: t)

/-- `"|".join(photo_file_ids)` — the `PhotoFileIDs` cell written by `add_box`. -/
def joinPhotoIds (refs : List String) : String :=
  ⟨joinSep '|' (refs.map String.data)⟩

/-- `r[2].split("|") if ... and r[2] else []` — the read-back in
`btn_pending` / `btn_my_boxes` (a falsy, i.e. empty, cell yields `[]`). -/
def readPhotoCell (cell : String) : List String :=
  if cell = "" then [] else (splitSep '|' cell.data).map (fun l => ⟨l⟩)

theorem splitSep_cons (sep c : Char) (cs : List Char) :
    splitSep sep (c :: cs) =
      match splitSep sep cs with
      | [] => [[]]
      | h :: t => if c = sep then [] :: h :: t else (c :: h) :: t := rfl

theorem splitSep_ne_nil (sep : Char) (l : List Char) : splitSep sep l ≠ [] := by
  rcases l with _ | ⟨c, cs⟩
  · simp [splitSep]
  · rw [splitSep_cons]
    rcases splitSep sep cs with _ | ⟨h, t⟩
    · simp
    · by_cases hc : c = sep
      · simp [hc]
      · simp [hc]

theorem splitSep_no_sep (sep : Char) (x : List Char) (hx : sep ∉ x) :
    splitSep sep x = [x] := by
  induction x with
  | nil => rfl
  | cons c cs ih =>
    have hcs : sep ∉ cs := fun h => hx (List.mem_cons_of_mem _ h)
    have hc : ¬ (c = sep) := fun h => hx (h ▸ List.mem_cons_self _ _)
    rw [splitSep_cons, ih hcs]
    simp [hc]

theorem splitSep_append_sep (sep : Char) (x r : List Char) (hx : sep ∉ x) :
    splitSep sep (x ++ sep :: r) = x :: splitSep sep r := by
  induction x with
  | nil =>
    rw [List.nil_append, splitSep_cons]
    rcases hs : splitSep sep r with _ | ⟨h, t⟩
    · exact absurd hs (splitSep_ne_nil sep r)
    · simp
  | cons c cs ih =>
    have hcs : sep ∉ cs := fun h => hx (List.mem_cons_of_mem _ h)
    have hc : ¬ (c = sep) := fun h => hx (h ▸ List.mem_cons_self _ _)
    rw [List.cons_append, splitSep_cons, ih hcs]
    simp [hc]

theorem splitSep_joinSep (sep : Char) :
    ∀ xs : List (List Char), xs ≠ [] → (∀ x ∈ xs, sep ∉ x) →
      splitSep sep (joinSep sep xs) = xs := by
  intro xs
  induction xs with
  | nil => intro h; exact absurd rfl h
  | cons x t ih =>
    intro _ hmem
    rcases t with _ | ⟨y, t'⟩
    · exact splitSep_no_sep sep x (hmem x (List.mem_cons_self _ _))
    · show splitSep sep (x ++ sep :: joinSep sep (y :: t')) = x :: y :: t'
      rw [splitSep_append_sep sep x _ (hmem x (List.mem_cons_self _ _))]
      rw [ih (by simp) (fun z hz => hmem z (List.mem_cons_of_mem _ hz))]

theorem map_mk_map_data (l : List String) :
    (l.map String.data).map (fun d => (⟨d⟩ : String)) = l := by
  induction l with
  | nil => rfl
  | cons r t ih =>
    rw [List.map_cons, List.map_cons, ih]

/-- C9 (amended): for a non-empty sequence of photo references, none empty
and none containing `'|'`, the cell written by `add_box` reads back as
exactly the original sequence, and an empty cell reads back as the empty
sequence. -/
theorem C9_photo_refs_roundtrip (refs : List String) (hne : refs ≠ [])
    (hok : ∀ r ∈ refs, r ≠ "" ∧ '|' ∉ r.data) :
    readPhotoCell (joinPhotoIds refs) = refs ∧ readPhotoCell "" = [] := by
  constructor
  · have hcell : joinPhotoIds refs ≠ "" := by
      have hdata0 : (joinPhotoIds refs).data = joinSep '|' (refs.map String.data) := rfl
      intro hemp
      have hnil : joinSep '|' (refs.map String.data) = [] := by
        rw [← hdata0, hemp]
      rcases refs with _ | ⟨x, t⟩
      · exact absurd rfl hne
      · rcases t with _ | ⟨y, t'⟩
        · have hx := (hok x (List.mem_cons_self _ _)).1
          apply hx
          have hxd : x.data = [] := hnil
          cases x
          exact congrArg String.mk hxd
        · have : x.data ++ '|' :: joinSep '|' (y.data :: t'.map String.data) = [] := hnil
          simp at this
    unfold readPhotoCell
    rw [if_neg hcell]
    have hdata : (joinPhotoIds refs).data = joinSep '|' (refs.map String.data) := rfl
    rw [hdata, splitSep_joinSep '|' (refs.map String.data) (by simpa using hne)
      (by
        intro x hx
        obtain ⟨r, hr, rfl⟩ := List.mem_map.mp hx
        exact (hok r hr).2)]
    exact map_mk_map_data refs
  · rfl

/-- C9 witness: a concrete two-element sequence survives the roundtrip. -/
theorem C9_photo_refs_roundtrip_witness :
    readPhotoCell (joinPhotoIds ["a", "b"]) = ["a", "b"] ∧ readPhotoCell "" = [] :=
  C9_photo_refs_roundtrip ["a", "b"] (by decide) (by decide)

/-- C9 (counterexample): the claim as stated also covers the singleton
sequence `[""]` — its join is the empty cell, whose read-back is `[]`, not
`[""]`. -/
theorem C9_counterexample : readPhotoCell (joinPhotoIds [""]) ≠ [""] := by
  decide

/-! ## Dates — `datetime.strptime(t, "%d-%m-%Y")` and `strftime("%d-%m-%Y")`

CPython's `strptime` matches `%d` and `%m` with value-bounded one-or-two
digit alternations and `%Y` with exactly four digits (`\d\d\d\d`), against
the whole string, then builds the `datetime` (raising for day `0`, year
`0`, February 31st, …).  Splitting on `'-'` into exactly three all-digit
pieces — one or two digits for day and month, exactly four for the year —
and then checking calendar validity accepts and rejects the same strings:
whenever the regex alternations cut a match short (day `32`, month `13`,
…) the numeric value also fails the calendar check.  `strftime` zero-pads
`%d` and `%m` to two digits; `%Y` is rendered unpadded (glibc), so years
below 1000 produce fewer than four digits and such a stored cell does not
parse back. -/

structure Ymd where
  d : Nat
  m : Nat
  y : Nat
deriving DecidableEq, Repr

/-- Gregorian leap year, as `datetime` computes it. -/
def isLeap (y : Nat) : Bool := y % 4 == 0 && (!(y % 100 == 0) || y % 400 == 0)

def daysInMonth (m y : Nat) : Nat :=
  if m = 2 then (if isLeap y then 29 else 28)
  else if m = 4 ∨ m = 6 ∨ m = 9 ∨ m = 11 then 30 else 31

/-- The dates `datetime.strptime` accepts: month 1–12, day within the
month, year in `datetime`'s 1–9999 range. -/
def validYmd (t : Ymd) : Bool :=
  1 ≤ t.y && t.y ≤ 9999 && 1 ≤ t.m && t.m ≤ 12 && 1 ≤ t.d && t.d ≤ daysInMonth t.m t.y

def parseDMYPieces : List (List Char) → Option Ymd
  | [ds, ms, ys] =>
    if ds ≠ [] ∧ ds.length ≤ 2 ∧ ds.all isDig
        ∧ ms ≠ [] ∧ ms.length ≤ 2 ∧ ms.all isDig
        ∧ ys ≠ [] ∧ ys.length = 4 ∧ ys.all isDig then
      if validYmd ⟨digitsVal ds, digitsVal ms, digitsVal ys⟩ then
        some ⟨digitsVal ds, digitsVal ms, digitsVal ys⟩
      else none
    else none
  | _ => none

/-- `datetime.strptime(t, "%d-%m-%Y").date()`, `none` when it raises. -/
def parseDMY (s : String) : Option Ymd := parseDMYPieces (splitSep '-' s.data)

/-- `d.strftime("%d-%m-%Y")`. -/
def fmtYmd (t : Ymd) : String :=
  ⟨padTo 2 t.d ++ '-' :: (padTo 2 t.m ++ '-' :: natDigits t.y)⟩

theorem validYmd_of_parseDMY (s : String) (t : Ymd) (h : parseDMY s = some t) :
    validYmd t = true := by
  unfold parseDMY at h
  rcases hs : splitSep '-' s.data with _ | ⟨a, _ | ⟨b, _ | ⟨c, _ | ⟨e, l⟩⟩⟩⟩ <;> rw [hs] at h
  · exact absurd h (by simp [parseDMYPieces])
  · exact absurd h (by simp [parseDMYPieces])
  · exact absurd h (by simp [parseDMYPieces])
  · simp only [parseDMYPieces] at h
    split_ifs at h with h1 h2
    · injection h with h3
      rw [← h3]
      exact h2
  · exact absurd h (by simp [parseDMYPieces])

/-! ## The worksheet and status transitions

The worksheet is a list of rows, each a list of cell strings (metadata and
header rows included; rows written by `add_box` have the eleven columns
BoxID, Timestamp, PhotoFileIDs, CollectorTGID, CollectorName, Date,
Destination, Status, ProcessedByTGID, ProcessedAt, Notes).  `ws.find(v)`
scans cells in row-major order, so it yields the first row containing `v`
in any cell.  `ws.update_cell(row, col, v)` writes one cell; columns are
1-based in gspread, hence `update_cell(row, 8)` is index 7 here. -/

def findBoxRowAux (boxid : String) : List (List String) → Nat → Option Nat
  | [], _ => none
  | r :: rs, k => if boxid ∈ r then some k else findBoxRowAux boxid rs (k + 1)

/-- `GSHelper.find_box_row`: the (0-based) row of the first cell equal to
`boxid`, `none` when `ws.find` fails. -/
def find_box_row (sheet : List (List String)) (boxid : String) : Option Nat :=
  findBoxRowAux boxid sheet 0

/-- `GSHelper.update_box_status`: locate the row, then overwrite columns
8, 9, 10 (Status, ProcessedByTGID — stored as `str(tgid)` — and
ProcessedAt) in sequence; `none` models the `return False` paths. -/
def update_box_status (sheet : List (List String)) (boxid status : String)
    (tgid : Int) (now : String) : Option (List (List String)) :=
  match find_box_row sheet boxid with
  | none => none
  | some i =>
    some (sheet.set i ((((sheet.getD i []).set 7 status).set 8 (toString tgid)).set 9 now))

/-- Outcome of one `worker_action_cb` callback: the worksheet afterwards,
whether the update was applied, and the alert/answer text shown. -/
structure TransOut where
  sheet : List (List String)
  ok : Bool
  msg : String
deriving DecidableEq, Repr

/-- The `worker_action_cb` handler.  `role` is the value `get_role`
returned for the pressing user; the collector-notification step after the
update only sends a message and never touches the worksheet, so it is not
modelled. -/
def worker_action_cb (role action boxid : String) (actor : Int) (now : String)
    (sheet : List (List String)) : TransOut :=
  if ¬ (role = "worker" ∨ role = "admin") then
    ⟨sheet, false, "У вас нет прав менять статус."⟩
  else
    match (if action = "in_process" then some "В обработке"
           else if action = "done" then some "Обработана" else none) with
    | none => ⟨sheet, false, "Неизвестное действие"⟩
    | some status =>
      match update_box_status sheet boxid status actor now with
      | none => ⟨sheet, false, "Не удалось обновить статус — коробка не найдена."⟩
      | some s2 => ⟨s2, true, "Статус коробки " ++ boxid ++ " обновлён: " ++ status⟩

theorem findBoxRowAux_spec (boxid : String) :
    ∀ (l : List (List String)) (k i : Nat), findBoxRowAux boxid l k = some i →
      ∃ l1 r l2, l = l1 ++ r :: l2 ∧ k + l1.length = i ∧ boxid ∈ r ∧ ∀ r' ∈ l1, boxid ∉ r' := by
  intro l
  induction l with
  | nil => intro k i h; exact absurd h (by simp [findBoxRowAux])
  | cons r rs ih =>
    intro k i h
    unfold findBoxRowAux at h
    split_ifs at h with hmem
    · injection h with h2
      exact ⟨[], r, rs, rfl, by simpa using h2, hmem, by simp⟩
    · obtain ⟨l1, r', l2, hl, hk, hm, hpre⟩ := ih (k + 1) i h
      refine ⟨r :: l1, r', l2, by rw [hl, List.cons_append], by simp; omega, hm, ?_⟩
      intro x hx
      rcases List.mem_cons.mp hx with rfl | hx2
      · exact hmem
      · exact hpre x hx2

theorem findBoxRowAux_of_decomp (boxid : String) (l1 : List (List String))
    (r : List String) (l2 : List (List String)) (hmem : boxid ∈ r)
    (hpre : ∀ r' ∈ l1, boxid ∉ r') :
    ∀ k, findBoxRowAux boxid (l1 ++ r :: l2) k = some (k + l1.length) := by
  induction l1 with
  | nil =>
    intro k
    unfold findBoxRowAux
    simp [hmem]
  | cons a l1 ih =>
    intro k
    show findBoxRowAux boxid (a :: (l1 ++ r :: l2)) k = _
    unfold findBoxRowAux
    rw [if_neg (hpre a (List.mem_cons_self _ _)),
      ih (fun x hx => hpre x (List.mem_cons_of_mem _ hx)) (k + 1)]
    congr 1
    simp
    omega

theorem find_box_row_spec (sheet : List (List String)) (boxid : String) (i : Nat)
    (h : find_box_row sheet boxid = some i) :
    ∃ l1 r l2, sheet = l1 ++ r :: l2 ∧ l1.length = i ∧ boxid ∈ r ∧ ∀ r' ∈ l1, boxid ∉ r' := by
  obtain ⟨l1, r, l2, hl, hk, hm, hpre⟩ := findBoxRowAux_spec boxid sheet 0 i h
  exact ⟨l1, r, l2, hl, by omega, hm, hpre⟩

theorem find_box_row_of_decomp (boxid : String) (l1 : List (List String))
    (r : List String) (l2 : List (List String)) (hmem : boxid ∈ r)
    (hpre : ∀ r' ∈ l1, boxid ∉ r') :
    find_box_row (l1 ++ r :: l2) boxid = some l1.length := by
  have := findBoxRowAux_of_decomp boxid l1 r l2 hmem hpre 0
  simpa [find_box_row] using this

theorem set_len_append {α} (l1 : List α) (x v : α) (l2 : List α) :
    (l1 ++ x :: l2).set l1.length v = l1 ++ v :: l2 := by
  induction l1 with
  | nil => rfl
  | cons a l1 ih => simp [List.set, ih]

theorem getD_len_append {α} (l1 : List α) (x : α) (l2 : List α) (d : α) :
    (l1 ++ x :: l2).getD l1.length d = x := by
  induction l1 with
  | nil => rfl
  | cons a l1 ih => simpa using ih

theorem getD_append_cons_ne {α} (l1 : List α) (x y : α) (l2 : List α) (d : α) :
    ∀ j, j ≠ l1.length → (l1 ++ x :: l2).getD j d = (l1 ++ y :: l2).getD j d := by
  induction l1 with
  | nil =>
    intro j hj
    rcases j with _ | j
    · exact absurd rfl hj
    · rfl
  | cons a l1 ih =>
    intro j hj
    rcases j with _ | j
    · rfl
    · show (l1 ++ x :: l2).getD j d = (l1 ++ y :: l2).getD j d
      exact ih j (by simpa using hj)

/-- The row written by `update_box_status`. -/
def updatedRow (r : List String) (status : String) (tgid : Int) (now : String) : List String :=
  ((r.set 7 status).set 8 (toString tgid)).set 9 now

theorem updatedRow_keeps (r : List String) (status : String) (tgid : Int) (now : String)
    (c : Nat) (h7 : c ≠ 7) (h8 : c ≠ 8) (h9 : c ≠ 9) :
    (updatedRow r status tgid now)[c]? = r[c]? := by
  unfold updatedRow
  rw [List.getElem?_set_ne (by omega), List.getElem?_set_ne (by omega),
    List.getElem?_set_ne (by omega)]

theorem updatedRow_length (r : List String) (status : String) (tgid : Int) (now : String) :
    (updatedRow r status tgid now).length = r.length := by
  unfold updatedRow
  simp

theorem updatedRow_fields (r : List String) (status : String) (tgid : Int) (now : String)
    (hlen : 10 ≤ r.length) :
    (updatedRow r status tgid now)[7]? = some status ∧
    (updatedRow r status tgid now)[8]? = some (toString tgid) ∧
    (updatedRow r status tgid now)[9]? = some now := by
  unfold updatedRow
  refine ⟨?_, ?_, ?_⟩
  · rw [List.getElem?_set_ne (by omega), List.getElem?_set_ne (by omega),
      List.getElem?_set_self (by simpa using by omega)]
  · rw [List.getElem?_set_ne (by omega), List.getElem?_set_self (by simp; omega)]
  · rw [List.getElem?_set_self (by simp; omega)]

theorem mem_updatedRow (r : List String) (boxid status : String) (tgid : Int) (now : String)
    (hkey : r[0]? = some boxid) : boxid ∈ updatedRow r status tgid now :=
  List.getElem?_mem (by rw [updatedRow_keeps r status tgid now 0 (by omega) (by omega) (by omega)]; exact hkey)

theorem update_box_status_decomp (l1 : List (List String)) (r : List String)
    (l2 : List (List String)) (boxid status : String) (tgid : Int) (now : String)
    (hmem : boxid ∈ r) (hpre : ∀ r' ∈ l1, boxid ∉ r') :
    update_box_status (l1 ++ r :: l2) boxid status tgid now
      = some (l1 ++ updatedRow r status tgid now :: l2) := by
  unfold update_box_status
  rw [find_box_row_of_decomp boxid l1 r l2 hmem hpre]
  show some ((l1 ++ r :: l2).set l1.length
      (((((l1 ++ r :: l2).getD l1.length []).set 7 status).set 8 (toString tgid)).set 9 now)) = _
  rw [getD_len_append, set_len_append]
  rfl

theorem worker_action_cb_ok (role action boxid : String) (a : Int) (now : String)
    (sheet : List (List String)) (st : String)
    (hrole : role = "worker" ∨ role = "admin")
    (hst : (if action = "in_process" then some "В обработке"
            else if action = "done" then some "Обработана" else none) = some st)
    (s2 : List (List String)) (hupd : update_box_status sheet boxid st a now = some s2) :
    worker_action_cb role action boxid a now sheet
      = ⟨s2, true, "Статус коробки " ++ boxid ++ " обновлён: " ++ st⟩ := by
  unfold worker_action_cb
  rw [if_neg (not_not_intro hrole), hst]
  show (match update_box_status sheet boxid st a now with
    | none => (⟨sheet, false, "Не удалось обновить статус — коробка не найдена."⟩ : TransOut)
    | some s2 => ⟨s2, true, "Статус коробки " ++ boxid ++ " обновлён: " ++ st⟩) = _
  rw [hupd]

/-- C5: status transitions validate nothing about the current status: the
same action applied twice by authorized actors succeeds both times, the
status after the repeat equals the status after the first call, the
ProcessedBy/ProcessedAt columns hold the second call's actor and timestamp,
and `mark_done` (`"done"`) sets `Обработана` (DONE) directly whatever the
row's current status — in particular straight from NEW. -/
theorem C5_transition_idempotent (sheet : List (List String))
    (boxid action role1 role2 : String) (a1 a2 : Int) (t1 t2 : String) (i : Nat)
    (hrole1 : role1 = "worker" ∨ role1 = "admin")
    (hrole2 : role2 = "worker" ∨ role2 = "admin")
    (haction : action = "in_process" ∨ action = "done")
    (hfind : find_box_row sheet boxid = some i)
    (hkey : (sheet.getD i [])[0]? = some boxid)
    (hlen : 10 ≤ (sheet.getD i []).length) :
    ∃ s1 s2 : List (List String),
      (worker_action_cb role1 action boxid a1 t1 sheet).sheet = s1 ∧
      (worker_action_cb role1 action boxid a1 t1 sheet).ok = true ∧
      (worker_action_cb role2 action boxid a2 t2 s1).sheet = s2 ∧
      (worker_action_cb role2 action boxid a2 t2 s1).ok = true ∧
      (s2.getD i [])[7]? = (s1.getD i [])[7]? ∧
      (s2.getD i [])[8]? = some (toString a2) ∧
      (s2.getD i [])[9]? = some t2 ∧
      (action = "done" → (s1.getD i [])[7]? = some "Обработана") := by
  obtain ⟨l1, r, l2, hl, hi, hmem, hpre⟩ := find_box_row_spec sheet boxid i hfind
  subst hl
  subst hi
  rw [getD_len_append] at hkey hlen
  have hst : ∃ st : String,
      (if action = "in_process" then some "В обработке"
       else if action = "done" then some "Обработана" else none) = some st ∧
      (action = "done" → st = "Обработана") := by
    rcases haction with rfl | rfl
    · exact ⟨"В обработке", by simp, by simp⟩
    · exact ⟨"Обработана", by simp, by simp⟩
  obtain ⟨st, hstEq, hstDone⟩ := hst
  have hupd1 := update_box_status_decomp l1 r l2 boxid st a1 t1 hmem hpre
  have hcb1 := worker_action_cb_ok role1 action boxid a1 t1 _ st hrole1 hstEq _ hupd1
  have hmem1 : boxid ∈ updatedRow r st a1 t1 := mem_updatedRow r boxid st a1 t1 hkey
  have hupd2 := update_box_status_decomp l1 (updatedRow r st a1 t1) l2 boxid st a2 t2 hmem1 hpre
  have hcb2 := worker_action_cb_ok role2 action boxid a2 t2 _ st hrole2 hstEq _ hupd2
  have hlen1 : 10 ≤ (updatedRow r st a1 t1).length := by
    rw [updatedRow_length]
    exact hlen
  refine ⟨l1 ++ updatedRow r st a1 t1 :: l2,
    l1 ++ updatedRow (updatedRow r st a1 t1) st a2 t2 :: l2,
    by rw [hcb1], by rw [hcb1], by rw [hcb2], by rw [hcb2], ?_, ?_, ?_, ?_⟩
  · rw [getD_len_append, getD_len_append,
      (updatedRow_fields (updatedRow r st a1 t1) st a2 t2 hlen1).1,
      (updatedRow_fields r st a1 t1 hlen).1]
  · rw [getD_len_append]
    exact (updatedRow_fields (updatedRow r st a1 t1) st a2 t2 hlen1).2.1
  · rw [getD_len_append]
    exact (updatedRow_fields (updatedRow r st a1 t1) st a2 t2 hlen1).2.2
  · intro hd
    rw [getD_len_append, (updatedRow_fields r st a1 t1 hlen).1, hstDone hd]

/-- C5 witness: a NEW box (`Новая`), `done` pressed twice by worker `5`
then worker `6` — both succeed, the status goes straight to `Обработана`,
and the second press's actor/timestamp stand. -/
theorem C5_transition_idempotent_witness :
    ∃ s1 s2 : List (List String),
      (worker_action_cb "worker" "done" "B0001" 5 "01-01-2025 10:00:00"
        [["B0001", "ts", "p", "1", "Anna", "01-01-2025", "WB", "Новая", "", "", ""]]).sheet = s1 ∧
      (worker_action_cb "worker" "done" "B0001" 5 "01-01-2025 10:00:00"
        [["B0001", "ts", "p", "1", "Anna", "01-01-2025", "WB", "Новая", "", "", ""]]).ok = true ∧
      (worker_action_cb "worker" "done" "B0001" 6 "01-01-2025 11:00:00" s1).sheet = s2 ∧
      (worker_action_cb "worker" "done" "B0001" 6 "01-01-2025 11:00:00" s1).ok = true ∧
      (s2.getD 0 [])[7]? = (s1.getD 0 [])[7]? ∧
      (s2.getD 0 [])[8]? = some (toString (6 : Int)) ∧
      (s2.getD 0 [])[9]? = some "01-01-2025 11:00:00" ∧
      ("done" = "done" → (s1.getD 0 [])[7]? = some "Обработана") :=
  C5_transition_idempotent
    [["B0001", "ts", "p", "1", "Anna", "01-01-2025", "WB", "Новая", "", "", ""]]
    "B0001" "done" "worker" "worker" 5 6 "01-01-2025 10:00:00" "01-01-2025 11:00:00" 0
    (Or.inl rfl) (Or.inl rfl) (Or.inr rfl) (by decide) (by decide) (by decide)

/-- C6: an identity whose role is neither `worker` nor `admin` is rejected
with the no-permission alert and the worksheet unchanged; an unrecognized
action is rejected with the unknown-action alert and the worksheet
unchanged. -/
theorem C6_transition_rejections (role action boxid : String) (actor : Int)
    (now : String) (sheet : List (List String)) :
    (¬ (role = "worker" ∨ role = "admin") →
      worker_action_cb role action boxid actor now sheet
        = ⟨sheet, false, "У вас нет прав менять статус."⟩) ∧
    ((role = "worker" ∨ role = "admin") → action ≠ "in_process" → action ≠ "done" →
      worker_action_cb role action boxid actor now sheet
        = ⟨sheet, false, "Неизвестное действие"⟩) := by
  constructor
  · intro h
    unfold worker_action_cb
    rw [if_pos h]
  · intro hrole h1 h2
    unfold worker_action_cb
    rw [if_neg (not_not_intro hrole), if_neg h1, if_neg h2]

/-- C6 witness: a collector pressing `done` is rejected, and a worker
sending a corrupted action string is rejected; in both outcomes the
returned worksheet is the input worksheet. -/
theorem C6_transition_rejections_witness :
    worker_action_cb "collector" "done" "B0001" 5 "now"
        [["B0001", "ts", "p", "1", "Anna", "01-01-2025", "WB", "Новая", "", "", ""]]
      = ⟨[["B0001", "ts", "p", "1", "Anna", "01-01-2025", "WB", "Новая", "", "", ""]],
         false, "У вас нет прав менять статус."⟩ ∧
    worker_action_cb "worker" "reopen" "B0001" 5 "now"
        [["B0001", "ts", "p", "1", "Anna", "01-01-2025", "WB", "Новая", "", "", ""]]
      = ⟨[["B0001", "ts", "p", "1", "Anna", "01-01-2025", "WB", "Новая", "", "", ""]],
         false, "Неизвестное действие"⟩ :=
  ⟨(C6_transition_rejections "collector" "done" "B0001" 5 "now" _).1 (by decide),
   (C6_transition_rejections "worker" "reopen" "B0001" 5 "now" _).2 (Or.inl rfl)
     (by decide) (by decide)⟩

/-- C7: `update_box_status` is frame-preserving — when it succeeds it
rewrites only the located row, and in that row only the Status,
ProcessedByTGID and ProcessedAt columns (indices 7, 8, 9); every other row
and every other column of the located row is unchanged. -/
theorem C7_update_status_frame (sheet : List (List String)) (boxid status : String)
    (tgid : Int) (now : String) (sheet2 : List (List String))
    (h : update_box_status sheet boxid status tgid now = some sheet2) :
    ∃ i, find_box_row sheet boxid = some i ∧
      sheet2.length = sheet.length ∧
      (∀ j, j ≠ i → sheet2.getD j [] = sheet.getD j []) ∧
      sheet2.getD i [] = updatedRow (sheet.getD i []) status tgid now ∧
      (∀ c, c ≠ 7 → c ≠ 8 → c ≠ 9 → (sheet2.getD i [])[c]? = (sheet.getD i [])[c]?) := by
  unfold update_box_status at h
  rcases hfind : find_box_row sheet boxid with _ | i <;> rw [hfind] at h
  · exact absurd h (by simp)
  · injection h with h2
    obtain ⟨l1, r, l2, hl, hi, hmem, hpre⟩ := find_box_row_spec sheet boxid i hfind
    subst hl
    subst hi
    rw [getD_len_append, set_len_append] at h2
    refine ⟨l1.length, rfl, ?_, ?_, ?_, ?_⟩
    · rw [← h2]
      simp
    · intro j hj
      rw [← h2]
      exact getD_append_cons_ne l1 _ _ l2 [] j hj
    · rw [← h2, getD_len_append, getD_len_append]
      rfl
    · intro c h7 h8 h9
      rw [← h2, getD_len_append, getD_len_append]
      exact updatedRow_keeps r status tgid now c h7 h8 h9

/-- The worksheet of the C7 witness after the update. -/
def updSheetC7 : List (List String) :=
  [["B0001", "t1", "p1", "1", "Anna", "01-01-2025", "WB", "Новая", "", "", ""],
   ["B0002", "t2", "p2", "2", "Vera", "02-01-2025", "OZON", "Обработана", "7", "now", ""]]

/-- C7 witness: on a two-row sheet, updating `B0002` leaves row 0 and the
non-status columns of row 1 untouched. -/
theorem C7_update_status_frame_witness :
    ∃ i, find_box_row
        [["B0001", "t1", "p1", "1", "Anna", "01-01-2025", "WB", "Новая", "", "", ""],
         ["B0002", "t2", "p2", "2", "Vera", "02-01-2025", "OZON", "Новая", "", "", ""]]
        "B0002" = some i ∧
      (updSheetC7.length = 2) ∧
      (∀ j, j ≠ i → updSheetC7.getD j [] =
        [["B0001", "t1", "p1", "1", "Anna", "01-01-2025", "WB", "Новая", "", "", ""],
         ["B0002", "t2", "p2", "2", "Vera", "02-01-2025", "OZON", "Новая", "", "", ""]].getD j []) ∧
      updSheetC7.getD i []
        = updatedRow ([["B0001", "t1", "p1", "1", "Anna", "01-01-2025", "WB", "Новая", "", "", ""],
            ["B0002", "t2", "p2", "2", "Vera", "02-01-2025", "OZON", "Новая", "", "", ""]].getD i [])
            "Обработана" 7 "now" ∧
      (∀ c, c ≠ 7 → c ≠ 8 → c ≠ 9 → (updSheetC7.getD i [])[c]? =
        ([["B0001", "t1", "p1", "1", "Anna", "01-01-2025", "WB", "Новая", "", "", ""],
          ["B0002", "t2", "p2", "2", "Vera", "02-01-2025", "OZON", "Новая", "", "", ""]].getD i [])[c]?) := by
  have h := C7_update_status_frame
    [["B0001", "t1", "p1", "1", "Anna", "01-01-2025", "WB", "Новая", "", "", ""],
     ["B0002", "t2", "p2", "2", "Vera", "02-01-2025", "OZON", "Новая", "", "", ""]]
    "B0002" "Обработана" 7 "now" updSheetC7 (by decide)
  obtain ⟨i, h1, h2, h3, h4, h5⟩ := h
  exact ⟨i, h1, by rw [h2]; decide, h3, h4, h5⟩

/-! ## The intake conversation state machine

One user's aiogram FSM, dispatched as aiogram 3 does: handlers run in
registration order, and a handler without a `State` filter fires in *any*
state.  So `/start` and the reply-button texts registered before the
per-state handlers are matched first, and the catch-all `fallback` handler
answers anything that nothing else matched.

Outgoing messages are modelled only by the reply keyboard attached to each
`answer` (the claims speak about which menu the user is returned to);
answers without a `reply_markup` contribute nothing.  `m.text.strip()` is
modelled by `String.trim` and `str.upper()`/`str.lower()` by a character
map covering the ASCII and Cyrillic alphabets these keyboards use.
Metadata reads are taken to succeed during the conversation (their failure
mode is the subject of `get_role` above); metadata *writes* from the admin
sub-flows are threaded through the environment. -/

/-- Reply keyboards (`kb_admin` … `kb_confirm`, the single-button cancel
keyboard of `date_manual_prompt`, and `ReplyKeyboardRemove`). -/
inductive Kb where
  | adminMenu
  | workerMenu
  | collectorMenu
  | defaultMenu
  | photosReady
  | dateChoice
  | destChoice
  | confirmMenu
  | cancelOnly
  | removeKb
deriving DecidableEq, Repr

/-- Conversation states: the `NewBox`, `AddCollector` and `AddWorker`
state groups. -/
inductive CState where
  | nbPhotos
  | nbName
  | nbDateChoice
  | nbManualDate
  | nbDest
  | nbConfirm
  | acTgid
  | acName
  | awTgid
deriving DecidableEq, Repr

/-- The per-user FSM data dict; a missing key is `none` (`data.get`
defaults are applied at the use sites, as in the source). -/
structure Draft where
  photoIds : Option (List String) := none
  collectorName : Option String := none
  boxDate : Option String := none
  dest : Option String := none
  newCollectorTgid : Option Int := none
deriving DecidableEq, Repr

/-- The static admin ids plus the two ledger membership lists (as decoded
by successful reads). -/
structure Env where
  admins : List Int
  workers : List Int
  collectors : List (Int × String)
deriving DecidableEq, Repr

/-- One user's view of the system: the metadata environment and the user's
conversation state (`none` = no state, empty data). -/
structure Sys where
  env : Env
  conv : Option (CState × Draft)
deriving DecidableEq, Repr

/-- The arguments of one `gs.add_box` call made by `confirm_send`. -/
structure Creation where
  photos : List String
  collectorTgid : Int
  collectorName : String
  dateStr : String
  dest : String
deriving DecidableEq, Repr

/-- Result of dispatching one inbound event. -/
structure StepOut where
  sys : Sys
  creations : List Creation
  kbs : List Kb
deriving DecidableEq, Repr

/-- An inbound message: a photo (its file id) or a text. -/
inductive Ev where
  | photo (fid : String)
  | text (t : String)
deriving DecidableEq, Repr

/-- `get_role` under successful metadata reads, over the decoded lists. -/
def getRoleEnv (env : Env) (uid : Int) : String :=
  if uid ∈ env.admins then "admin"
  else if uid ∈ env.workers then "worker"
  else if uid ∈ env.collectors.map Prod.fst then "collector"
  else "unknown"

/-- The role-appropriate idle menu, as `cmd_start` / `back_to_main` select it. -/
def idleKb (role : String) : Kb :=
  if role = "admin" then .adminMenu
  else if role = "worker" then .workerMenu
  else if role = "collector" then .collectorMenu
  else .defaultMenu

/-- The keyboard `cancel_newbox` restores:
`kb_admin() if admin else kb_collector() if collector else kb_default()`. -/
def cancelKb1 (env : Env) (uid : Int) : Kb :=
  if getRoleEnv env uid = "admin" then .adminMenu
  else if getRoleEnv env uid = "collector" then .collectorMenu
  else .defaultMenu

/-- The keyboard the other cancel paths (and `confirm_send`) restore:
`kb_collector() if collector else kb_admin()`. -/
def cancelKb2 (env : Env) (uid : Int) : Kb :=
  if getRoleEnv env uid = "collector" then .collectorMenu else .adminMenu

/-- `str.upper()` on the ASCII and Cyrillic letters used here. -/
def upperChar (c : Char) : Char :=
  if 'a' ≤ c ∧ c ≤ 'z' then Char.ofNat (c.toNat - 32)
  else if 'а' ≤ c ∧ c ≤ 'я' then Char.ofNat (c.toNat - 32)
  else if c = 'ё' then 'Ё' else c

/-- `str.lower()` on the ASCII and Cyrillic letters used here. -/
def lowerChar (c : Char) : Char :=
  if 'A' ≤ c ∧ c ≤ 'Z' then Char.ofNat (c.toNat + 32)
  else if 'А' ≤ c ∧ c ≤ 'Я' then Char.ofNat (c.toNat + 32)
  else if c = 'Ё' then 'ё' else c

def upperStr (s : String) : String := ⟨s.data.map upperChar⟩

def lowerStr (s : String) : String := ⟨s.data.map lowerChar⟩

/-- The whitespace `str.strip()` removes (the ASCII subset; no other
whitespace reaches these handlers). -/
def isPyWhitespace (c : Char) : Bool :=
  c = ' ' ∨ c = '\t' ∨ c = '\n' ∨ c = '\r'

/-- Python `s.strip()`. -/
def pyStrip (s : String) : String :=
  ⟨((s.data.dropWhile isPyWhitespace).reverse.dropWhile isPyWhitespace).reverse⟩

/-- The current data dict (`{}` when no conversation is active). -/
def draftOfConv : Option (CState × Draft) → Draft
  | some (_, d) => d
  | none => {}

/-- `gs.add_collector` (duplicate tgids rejected, otherwise appended). -/
def addCollectorEnv (env : Env) (g : Int) (nm : String) : Env :=
  if g ∈ env.collectors.map Prod.fst then env
  else { env with collectors := env.collectors ++ [(g, nm)] }

/-- `gs.add_worker` (duplicates rejected, otherwise appended). -/
def addWorkerEnv (env : Env) (n : Int) : Env :=
  if n ∈ env.workers then env
  else { env with workers := env.workers ++ [n] }

/-- The text handlers registered after the `NewBox` state handlers:
`btn_pending`, `btn_my_boxes`, `btn_add_collector`, `btn_add_worker`,
`btn_export_csv`, `btn_stats`, `back_to_main`, and the catch-all
`fallback`.  Only the two admin add-flows touch the conversation state. -/
def globalTail (env : Env) (uid : Int) (conv : Option (CState × Draft)) (t : String) : StepOut :=
  if t = "📦 Ожидающие" then ⟨⟨env, conv⟩, [], []⟩
  else if t = "📋 Мои коробки" then ⟨⟨env, conv⟩, [], []⟩
  else if t = "➕ Добавить сборщицу" then
    if uid ∈ env.admins then ⟨⟨env, some (.acTgid, draftOfConv conv)⟩, [], [.removeKb]⟩
    else ⟨⟨env, conv⟩, [], []⟩
  else if t = "➕ Добавить работника" then
    if uid ∈ env.admins then ⟨⟨env, some (.awTgid, draftOfConv conv)⟩, [], [.removeKb]⟩
    else ⟨⟨env, conv⟩, [], []⟩
  else if t = "📤 Экспорт CSV" then ⟨⟨env, conv⟩, [], []⟩
  else if t = "📈 Статистика" then ⟨⟨env, conv⟩, [], []⟩
  else if t = "🔙 В главное" then ⟨⟨env, conv⟩, [], [idleKb (getRoleEnv env uid)]⟩
  else ⟨⟨env, conv⟩, [], [idleKb (getRoleEnv env uid)]⟩

/-- Dispatch of one text message through the per-state handlers (called
after the `/start` and new-box entry handlers have not matched). -/
def stepTextState (today : Ymd) (uid : Int) (s : Sys) (t : String) : StepOut :=
  match s.conv with
  | some (.nbPhotos, d) =>
    if t = "Отмена" then ⟨⟨s.env, none⟩, [], [cancelKb1 s.env uid]⟩
    else if t = "Готово" then
      if d.photoIds.getD [] = [] then ⟨s, [], []⟩
      else
        match s.env.collectors.find? (fun p => p.1 = uid) with
        | some (_, nm) =>
          if ¬ (nm = "") then
            ⟨⟨s.env, some (.nbDateChoice, { d with collectorName := some nm })⟩, [], [.dateChoice]⟩
          else ⟨⟨s.env, some (.nbName, d)⟩, [], [.removeKb]⟩
        | none => ⟨⟨s.env, some (.nbName, d)⟩, [], [.removeKb]⟩
    else globalTail s.env uid s.conv t
  | some (.nbName, d) =>
    ⟨⟨s.env, some (.nbDateChoice, { d with collectorName := some (pyStrip t) })⟩, [], [.dateChoice]⟩
  | some (.nbDateChoice, d) =>
    if t = "Сегодня" then
      ⟨⟨s.env, some (.nbDest, { d with boxDate := some (fmtYmd today) })⟩, [], [.destChoice]⟩
    else if t = "Ввести дату" then
      ⟨⟨s.env, some (.nbManualDate, d)⟩, [], [.cancelOnly]⟩
    else globalTail s.env uid s.conv t
  | some (.nbManualDate, d) =>
    if lowerStr (pyStrip t) = "отмена" then ⟨⟨s.env, none⟩, [], [cancelKb2 s.env uid]⟩
    else
      match parseDMY (pyStrip t) with
      | some ymd =>
        ⟨⟨s.env, some (.nbDest, { d with boxDate := some (fmtYmd ymd) })⟩, [], [.destChoice]⟩
      | none => ⟨s, [], []⟩
  | some (.nbDest, d) =>
    if upperStr (pyStrip t) = "ОТМЕНА" then ⟨⟨s.env, none⟩, [], [cancelKb2 s.env uid]⟩
    else if ¬ (upperStr (pyStrip t) = "WB" ∨ upperStr (pyStrip t) = "OZON" ∨ upperStr (pyStrip t) = "FBS") then
      ⟨s, [], []⟩
    else ⟨⟨s.env, some (.nbConfirm, { d with dest := some (upperStr (pyStrip t)) })⟩, [], [.confirmMenu]⟩
  | some (.nbConfirm, d) =>
    if t = "Отмена" then ⟨⟨s.env, none⟩, [], [cancelKb2 s.env uid]⟩
    else if t = "Подтвердить" then
      ⟨⟨s.env, none⟩,
       [⟨d.photoIds.getD [], uid, d.collectorName.getD "Unknown",
         d.boxDate.getD (fmtYmd today), d.dest.getD "WB"⟩],
       [.removeKb, cancelKb2 s.env uid]⟩
    else globalTail s.env uid s.conv t
  | some (.acTgid, d) =>
    if t = "📦 Ожидающие" then ⟨s, [], []⟩
    else if t = "📋 Мои коробки" then ⟨s, [], []⟩
    else if t = "➕ Добавить сборщицу" then
      if uid ∈ s.env.admins then ⟨⟨s.env, some (.acTgid, d)⟩, [], [.removeKb]⟩ else ⟨s, [], []⟩
    else
      match pyIntOfChars (pyStrip t).data with
      | some n => ⟨⟨s.env, some (.acName, { d with newCollectorTgid := some n })⟩, [], []⟩
      | none => ⟨s, [], []⟩
  | some (.acName, d) =>
    if t = "📦 Ожидающие" then ⟨s, [], []⟩
    else if t = "📋 Мои коробки" then ⟨s, [], []⟩
    else if t = "➕ Добавить сборщицу" then
      if uid ∈ s.env.admins then ⟨⟨s.env, some (.acTgid, d)⟩, [], [.removeKb]⟩ else ⟨s, [], []⟩
    else
      match d.newCollectorTgid with
      | some g => ⟨⟨addCollectorEnv s.env g (pyStrip t), none⟩, [], [.adminMenu]⟩
      | none => ⟨⟨s.env, none⟩, [], [.adminMenu]⟩
  | some (.awTgid, d) =>
    if t = "📦 Ожидающие" then ⟨s, [], []⟩
    else if t = "📋 Мои коробки" then ⟨s, [], []⟩
    else if t = "➕ Добавить сборщицу" then
      if uid ∈ s.env.admins then ⟨⟨s.env, some (.acTgid, d)⟩, [], [.removeKb]⟩ else ⟨s, [], []⟩
    else if t = "➕ Добавить работника" then
      if uid ∈ s.env.admins then ⟨⟨s.env, some (.awTgid, d)⟩, [], [.removeKb]⟩ else ⟨s, [], []⟩
    else
      match pyIntOfChars (pyStrip t).data with
      | some n => ⟨⟨addWorkerEnv s.env n, none⟩, [], [.adminMenu]⟩
      | none => ⟨⟨s.env, none⟩, [], [.adminMenu]⟩
  | none => globalTail s.env uid s.conv t

/-- Dispatch of a text message: `cmd_start`, then `new_box_entry` (both
registered before every state handler and therefore matched in any
state), then the per-state handlers and the global tail. -/
def stepText (today : Ymd) (uid : Int) (s : Sys) (t : String) : StepOut :=
  if t = "/start" then ⟨s, [], [idleKb (getRoleEnv s.env uid)]⟩
  else if t = "➕ Новая коробка" then
    if ¬ (getRoleEnv s.env uid = "collector") ∧ uid ∉ s.env.admins then ⟨s, [], []⟩
    else ⟨⟨s.env, some (.nbPhotos, { draftOfConv s.conv with photoIds := some [] })⟩,
          [], [.photosReady]⟩
  else stepTextState today uid s t

/-- Dispatch of a photo message.  Only `collect_photo` accepts photos;
states whose catch-all text handler receives the photo raise
`AttributeError` on `m.text.strip()` before any mutation (except
`add_worker_tgid`, whose `state.clear()` sits after the `try`), and states
with no matching handler fall through to `fallback`. -/
def stepPhoto (uid : Int) (s : Sys) (fid : String) : StepOut :=
  match s.conv with
  | some (.nbPhotos, d) =>
    ⟨⟨s.env, some (.nbPhotos, { d with photoIds := some (d.photoIds.getD [] ++ [fid]) })⟩, [], []⟩
  | some (.nbDateChoice, _) => ⟨s, [], [idleKb (getRoleEnv s.env uid)]⟩
  | some (.nbConfirm, _) => ⟨s, [], [idleKb (getRoleEnv s.env uid)]⟩
  | some (.awTgid, _) => ⟨⟨s.env, none⟩, [], [.adminMenu]⟩
  | some _ => ⟨s, [], []⟩
  | none => ⟨s, [], [idleKb (getRoleEnv s.env uid)]⟩

/-- One inbound event. -/
def step (today : Ymd) (uid : Int) (s : Sys) : Ev → StepOut
  | .photo fid => stepPhoto uid s fid
  | .text t => stepText today uid s t

/-- A whole conversation: the final system state and every `add_box` call
made along the way, in order. -/
def runEvs (today : Ymd) (uid : Int) (s : Sys) : List Ev → Sys × List Creation
  | [] => (s, [])
  | e :: es =>
    let o := step today uid s e
    let r := runEvs today uid o.sys es
    (r.1, o.creations ++ r.2)

/-! ### The reachability invariant behind C4 -/

/-- The closed destination enumeration. -/
def destEnum (x : String) : Prop := x = "WB" ∨ x = "OZON" ∨ x = "FBS"

/-- Draft fields that are only ever written with validated values: a set
box date is the `strftime` rendering of a valid calendar date, a set
destination is in the enumeration. -/
def draftOk (d : Draft) : Prop :=
  (∀ b, d.boxDate = some b → ∃ t : Ymd, validYmd t = true ∧ b = fmtYmd t) ∧
  (∀ x, d.dest = some x → destEnum x)

/-- States reachable only after `done_photos` admitted a non-empty photo
list. -/
def advancedSt : CState → Bool
  | .nbName => true
  | .nbDateChoice => true
  | .nbManualDate => true
  | .nbDest => true
  | .nbConfirm => true
  | _ => false

def InvConv : Option (CState × Draft) → Prop
  | none => True
  | some (st, d) => draftOk d ∧ (advancedSt st = true → d.photoIds.getD [] ≠ [])

def Inv (s : Sys) : Prop := InvConv s.conv

/-- What C4 asserts of every persisted record. -/
def creationOk (c : Creation) : Prop :=
  c.photos ≠ [] ∧ (∃ t : Ymd, validYmd t = true ∧ c.dateStr = fmtYmd t) ∧ destEnum c.dest

theorem draftOk_default : draftOk {} := by
  constructor
  · intro b hb
    exact absurd hb (by simp)
  · intro x hx
    exact absurd hx (by simp)

theorem draftOk_of_conv (conv : Option (CState × Draft)) (h : InvConv conv) :
    draftOk (draftOfConv conv) := by
  rcases conv with _ | ⟨st, d⟩
  · exact draftOk_default
  · exact h.1

theorem notAdvanced_imp {st : CState} (h : advancedSt st = false) {P : Prop} :
    advancedSt st = true → P := by
  intro hh
  rw [h] at hh
  exact absurd hh (by decide)

theorem globalTail_inv (env : Env) (uid : Int) (conv : Option (CState × Draft)) (t : String)
    (h : InvConv conv) :
    InvConv (globalTail env uid conv t).sys.conv ∧ (globalTail env uid conv t).creations = [] := by
  unfold globalTail
  split_ifs <;>
    first
      | exact ⟨h, rfl⟩
      | exact ⟨⟨draftOk_of_conv conv h, notAdvanced_imp (by decide)⟩, rfl⟩

theorem stepPhoto_inv (uid : Int) (s : Sys) (fid : String) (h : Inv s) :
    Inv (stepPhoto uid s fid).sys ∧ (stepPhoto uid s fid).creations = [] := by
  rcases s with ⟨env, conv⟩
  unfold Inv at h ⊢
  rcases conv with _ | ⟨st, d⟩
  · exact ⟨trivial, rfl⟩
  · cases st
    · exact ⟨⟨h.1, notAdvanced_imp (by decide)⟩, rfl⟩
    · exact ⟨h, rfl⟩
    · exact ⟨h, rfl⟩
    · exact ⟨h, rfl⟩
    · exact ⟨h, rfl⟩
    · exact ⟨h, rfl⟩
    · exact ⟨h, rfl⟩
    · exact ⟨h, rfl⟩
    · exact ⟨trivial, rfl⟩

theorem stepTextState_inv (today : Ymd) (uid : Int) (s : Sys) (t : String)
    (htoday : validYmd today = true) (h : Inv s) :
    Inv (stepTextState today uid s t).sys ∧
    ∀ c ∈ (stepTextState today uid s t).creations, creationOk c := by
  rcases s with ⟨env, conv⟩
  unfold Inv at h ⊢
  rcases conv with _ | ⟨st, d⟩
  · simp only [stepTextState]
    have := globalTail_inv env uid none t h
    exact ⟨this.1, by rw [this.2]; simp⟩
  · cases st
    case nbPhotos =>
      show Inv (stepTextState today uid ⟨env, some (.nbPhotos, d)⟩ t).sys ∧ _
      simp only [stepTextState]
      split_ifs with h1 h2 h3
      · exact ⟨trivial, by simp⟩
      · exact ⟨h, by simp⟩
      · rcases hf : env.collectors.find? (fun p => p.1 = uid) with _ | ⟨g, nm⟩ <;>
          simp only [hf]
        · exact ⟨⟨h.1, fun _ => h3⟩, by simp⟩
        · split_ifs with h4
          · exact ⟨⟨h.1, fun _ => h3⟩, by simp⟩
          · exact ⟨⟨h.1, fun _ => h3⟩, by simp⟩
      · have := globalTail_inv env uid (some (.nbPhotos, d)) t h
        exact ⟨this.1, by rw [this.2]; simp⟩
    case nbName =>
      exact ⟨⟨h.1, fun _ => h.2 rfl⟩, by simp [stepTextState]⟩
    case nbDateChoice =>
      show Inv (stepTextState today uid ⟨env, some (.nbDateChoice, d)⟩ t).sys ∧ _
      simp only [stepTextState]
      split_ifs with h1 h2
      · refine ⟨⟨⟨?_, h.1.2⟩, fun _ => h.2 rfl⟩, by simp⟩
        intro b hb
        injection hb with hb2
        exact ⟨today, htoday, hb2.symm⟩
      · exact ⟨h, by simp⟩
      · have := globalTail_inv env uid (some (.nbDateChoice, d)) t h
        exact ⟨this.1, by rw [this.2]; simp⟩
    case nbManualDate =>
      show Inv (stepTextState today uid ⟨env, some (.nbManualDate, d)⟩ t).sys ∧ _
      simp only [stepTextState]
      split_ifs with h1
      · exact ⟨trivial, by simp⟩
      · rcases hp : parseDMY (pyStrip t) with _ | ymd <;> simp only [hp]
        · exact ⟨h, by simp⟩
        · refine ⟨⟨⟨?_, h.1.2⟩, fun _ => h.2 rfl⟩, by simp⟩
          intro b hb
          injection hb with hb2
          exact ⟨ymd, validYmd_of_parseDMY (pyStrip t) ymd hp, hb2.symm⟩
    case nbDest =>
      show Inv (stepTextState today uid ⟨env, some (.nbDest, d)⟩ t).sys ∧ _
      simp only [stepTextState]
      split_ifs with h1 h2
      · exact ⟨trivial, by simp⟩
      · refine ⟨⟨⟨h.1.1, ?_⟩, fun _ => h.2 rfl⟩, by simp⟩
        intro x hx
        injection hx with hx2
        rw [← hx2]
        exact h2
      · exact ⟨h, by simp⟩
    case nbConfirm =>
      show Inv (stepTextState today uid ⟨env, some (.nbConfirm, d)⟩ t).sys ∧ _
      simp only [stepTextState]
      split_ifs with h1 h2
      · exact ⟨trivial, by simp⟩
      · refine ⟨trivial, ?_⟩
        intro c hc
        rw [List.mem_singleton] at hc
        subst hc
        refine ⟨h.2 rfl, ?_, ?_⟩
        · rcases hb : d.boxDate with _ | b
          · exact ⟨today, htoday, rfl⟩
          · exact h.1.1 b hb
        · rcases hx : d.dest with _ | x
          · exact Or.inl rfl
          · exact h.1.2 x hx
      · have := globalTail_inv env uid (some (.nbConfirm, d)) t h
        exact ⟨this.1, by rw [this.2]; simp⟩
    case acTgid =>
      show Inv (stepTextState today uid ⟨env, some (.acTgid, d)⟩ t).sys ∧ _
      simp only [stepTextState]
      split_ifs with h1 h2 h3 h4
      · exact ⟨h, by simp⟩
      · exact ⟨h, by simp⟩
      · exact ⟨⟨h.1, notAdvanced_imp (by decide)⟩, by simp⟩
      · exact ⟨h, by simp⟩
      · rcases hi : pyIntOfChars (pyStrip t).data with _ | n <;> simp only [hi]
        · exact ⟨h, by simp⟩
        · exact ⟨⟨h.1, notAdvanced_imp (by decide)⟩, by simp⟩
    case acName =>
      show Inv (stepTextState today uid ⟨env, some (.acName, d)⟩ t).sys ∧ _
      simp only [stepTextState]
      split_ifs with h1 h2 h3 h4
      · exact ⟨h, by simp⟩
      · exact ⟨h, by simp⟩
      · exact ⟨⟨h.1, notAdvanced_imp (by decide)⟩, by simp⟩
      · exact ⟨h, by simp⟩
      · rcases hg : d.newCollectorTgid with _ | g <;> simp only [hg]
        · exact ⟨trivial, by simp⟩
        · exact ⟨trivial, by simp⟩
    case awTgid =>
      show Inv (stepTextState today uid ⟨env, some (.awTgid, d)⟩ t).sys ∧ _
      simp only [stepTextState]
      split_ifs with h1 h2 h3 h4 h5 h6
      · exact ⟨h, by simp⟩
      · exact ⟨h, by simp⟩
      · exact ⟨⟨h.1, notAdvanced_imp (by decide)⟩, by simp⟩
      · exact ⟨h, by simp⟩
      · exact ⟨⟨h.1, notAdvanced_imp (by decide)⟩, by simp⟩
      · exact ⟨h, by simp⟩
      · rcases hi : pyIntOfChars (pyStrip t).data with _ | n <;> simp only [hi]
        · exact ⟨trivial, by simp⟩
        · exact ⟨trivial, by simp⟩

theorem step_inv (today : Ymd) (uid : Int) (s : Sys) (e : Ev)
    (htoday : validYmd today = true) (h : Inv s) :
    Inv (step today uid s e).sys ∧ ∀ c ∈ (step today uid s e).creations, creationOk c := by
  rcases e with fid | t
  · have := stepPhoto_inv uid s fid h
    refine ⟨this.1, ?_⟩
    intro c hc
    have hc2 : c ∈ (stepPhoto uid s fid).creations := hc
    rw [this.2] at hc2
    exact absurd hc2 (by simp)
  · show Inv (stepText today uid s t).sys ∧
      ∀ c ∈ (stepText today uid s t).creations, creationOk c
    unfold stepText
    split_ifs with h1 h2 h3
    · exact ⟨h, by simp⟩
    · exact ⟨h, by simp⟩
    · exact ⟨⟨⟨(draftOk_of_conv s.conv h).1, (draftOk_of_conv s.conv h).2⟩,
        notAdvanced_imp (by decide)⟩, by simp⟩
    · exact stepTextState_inv today uid s t htoday h

theorem runEvs_creations_ok (today : Ymd) (uid : Int) (htoday : validYmd today = true) :
    ∀ (evs : List Ev) (s : Sys), Inv s →
      ∀ c ∈ (runEvs today uid s evs).2, creationOk c := by
  intro evs
  induction evs with
  | nil => intro s _ c hc; exact absurd hc (by simp [runEvs])
  | cons e es ih =>
    intro s hs c hc
    have hstep := step_inv today uid s e htoday hs
    have hc2 : c ∈ (step today uid s e).creations
        ++ (runEvs today uid (step today uid s e).sys es).2 := hc
    rw [List.mem_append] at hc2
    rcases hc2 with hc2 | hc2
    · exact hstep.2 c hc2
    · exact ih (step today uid s e).sys hstep.1 c hc2

/-! ### C4 — what reaches the ledger -/

/-- C4 (amended): every record the intake workflow persists carries at
least one photo reference, a date cell that is exactly the
`strftime("%d-%m-%Y")` rendering of a valid calendar date, and a
destination from the closed enumeration; the collector name, however, is
stored as entered (stripped) with no non-emptiness validation. -/
theorem C4_created_records_validity (today : Ymd) (uid : Int) (env : Env)
    (htoday : validYmd today = true) (evs : List Ev) :
    ∀ c ∈ (runEvs today uid ⟨env, none⟩ evs).2,
      c.photos ≠ [] ∧ (∃ t : Ymd, validYmd t = true ∧ c.dateStr = fmtYmd t) ∧
      (c.dest = "WB" ∨ c.dest = "OZON" ∨ c.dest = "FBS") := by
  intro c hc
  have hok := runEvs_creations_ok today uid htoday evs ⟨env, none⟩ trivial c hc
  exact ⟨hok.1, hok.2.1, hok.2.2⟩

/-- C4 witness: the record created by a complete run (photos `p1`, `p2`,
prefilled name, today's date, destination `WB`) satisfies the invariant. -/
theorem C4_created_records_validity_witness :
    (⟨["p1", "p2"], 1, "Anna", fmtYmd ⟨12, 10, 2026⟩, "WB"⟩ : Creation).photos ≠ [] ∧
    (∃ t : Ymd, validYmd t = true ∧
      (⟨["p1", "p2"], 1, "Anna", fmtYmd ⟨12, 10, 2026⟩, "WB"⟩ : Creation).dateStr = fmtYmd t) ∧
    ((⟨["p1", "p2"], 1, "Anna", fmtYmd ⟨12, 10, 2026⟩, "WB"⟩ : Creation).dest = "WB" ∨
     (⟨["p1", "p2"], 1, "Anna", fmtYmd ⟨12, 10, 2026⟩, "WB"⟩ : Creation).dest = "OZON" ∨
     (⟨["p1", "p2"], 1, "Anna", fmtYmd ⟨12, 10, 2026⟩, "WB"⟩ : Creation).dest = "FBS") :=
  C4_created_records_validity ⟨12, 10, 2026⟩ 1 ⟨[], [], [(1, "Anna")]⟩ (by decide)
    [.text "➕ Новая коробка", .photo "p1", .photo "p2", .text "Готово",
     .text "Сегодня", .text "WB", .text "Подтвердить"]
    ⟨["p1", "p2"], 1, "Anna", fmtYmd ⟨12, 10, 2026⟩, "WB"⟩ (by decide)

/-- C4 (counterexample): the collector name is never checked for
emptiness — entering a whitespace-only name stores `""` and the record is
still persisted, against the claim's "non-empty collector name" conjunct. -/
theorem C4_counterexample_empty_name :
    (runEvs ⟨12, 10, 2026⟩ 1 ⟨⟨[], [], [(1, "")]⟩, none⟩
      [.text "➕ Новая коробка", .photo "p", .text "Готово", .text " ",
       .text "Сегодня", .text "WB", .text "Подтвердить"]).2
    = [⟨["p"], 1, "", "12-10-2026", "WB"⟩] := by
  decide

/-! ### C3 — cancellation -/

theorem stepText_state (today : Ymd) (uid : Int) (s : Sys) (t : String)
    (h1 : ¬ (t = "/start")) (h2 : ¬ (t = "➕ Новая коробка")) :
    stepText today uid s t = stepTextState today uid s t := by
  unfold stepText
  rw [if_neg h1, if_neg h2]

theorem cancelKb1_eq_idle (env : Env) (uid : Int)
    (h : getRoleEnv env uid = "collector" ∨ getRoleEnv env uid = "admin") :
    cancelKb1 env uid = idleKb (getRoleEnv env uid) := by
  rcases h with h | h <;> simp [cancelKb1, idleKb, h]

theorem cancelKb2_eq_idle (env : Env) (uid : Int)
    (h : getRoleEnv env uid = "collector" ∨ getRoleEnv env uid = "admin") :
    cancelKb2 env uid = idleKb (getRoleEnv env uid) := by
  rcases h with h | h <;> simp [cancelKb2, idleKb, h]

/-- C3 (amended): for a user whose role is `collector` or `admin` (the
only roles that can enter the flow), the cancel text `Отмена` discards the
draft, creates nothing, and restores the role-appropriate idle menu in the
COLLECTING_PHOTOS, MANUAL_DATE, DESTINATION and CONFIRMING states; in the
NAMING state it is instead consumed as the collector name and the workflow
advances, and in the DATE_CHOICE state it falls through to the catch-all
re-prompt with the state and draft unchanged (the ledger is untouched in
every case). -/
theorem C3_cancel_behavior (today : Ymd) (env : Env) (uid : Int) (d : Draft)
    (hrole : getRoleEnv env uid = "collector" ∨ getRoleEnv env uid = "admin") :
    step today uid ⟨env, some (.nbPhotos, d)⟩ (.text "Отмена")
      = ⟨⟨env, none⟩, [], [idleKb (getRoleEnv env uid)]⟩ ∧
    step today uid ⟨env, some (.nbManualDate, d)⟩ (.text "Отмена")
      = ⟨⟨env, none⟩, [], [idleKb (getRoleEnv env uid)]⟩ ∧
    step today uid ⟨env, some (.nbDest, d)⟩ (.text "Отмена")
      = ⟨⟨env, none⟩, [], [idleKb (getRoleEnv env uid)]⟩ ∧
    step today uid ⟨env, some (.nbConfirm, d)⟩ (.text "Отмена")
      = ⟨⟨env, none⟩, [], [idleKb (getRoleEnv env uid)]⟩ ∧
    step today uid ⟨env, some (.nbName, d)⟩ (.text "Отмена")
      = ⟨⟨env, some (.nbDateChoice, { d with collectorName := some "Отмена" })⟩,
         [], [.dateChoice]⟩ ∧
    step today uid ⟨env, some (.nbDateChoice, d)⟩ (.text "Отмена")
      = ⟨⟨env, some (.nbDateChoice, d)⟩, [], [idleKb (getRoleEnv env uid)]⟩ := by
  refine ⟨?_, ?_, ?_, ?_, ?_, ?_⟩
  · show stepText today uid ⟨env, some (.nbPhotos, d)⟩ "Отмена" = _
    rw [stepText_state today uid _ _ (by decide) (by decide)]
    simp only [stepTextState]
    rw [if_pos trivial, cancelKb1_eq_idle env uid hrole]
  · show stepText today uid ⟨env, some (.nbManualDate, d)⟩ "Отмена" = _
    rw [stepText_state today uid _ _ (by decide) (by decide)]
    simp only [stepTextState]
    rw [if_pos (show lowerStr (pyStrip "Отмена") = "отмена" from by decide),
      cancelKb2_eq_idle env uid hrole]
  · show stepText today uid ⟨env, some (.nbDest, d)⟩ "Отмена" = _
    rw [stepText_state today uid _ _ (by decide) (by decide)]
    simp only [stepTextState]
    rw [if_pos (show upperStr (pyStrip "Отмена") = "ОТМЕНА" from by decide),
      cancelKb2_eq_idle env uid hrole]
  · show stepText today uid ⟨env, some (.nbConfirm, d)⟩ "Отмена" = _
    rw [stepText_state today uid _ _ (by decide) (by decide)]
    simp only [stepTextState]
    rw [if_pos trivial, cancelKb2_eq_idle env uid hrole]
  · show stepText today uid ⟨env, some (.nbName, d)⟩ "Отмена" = _
    rw [stepText_state today uid _ _ (by decide) (by decide)]
    simp only [stepTextState]
    rw [show pyStrip "Отмена" = "Отмена" from by decide]
  · show stepText today uid ⟨env, some (.nbDateChoice, d)⟩ "Отмена" = _
    rw [stepText_state today uid _ _ (by decide) (by decide)]
    simp only [stepTextState]
    rw [if_neg (by decide), if_neg (by decide)]
    unfold globalTail
    rw [if_neg (by decide), if_neg (by decide), if_neg (by decide), if_neg (by decide),
      if_neg (by decide), if_neg (by decide), if_neg (by decide)]

/-- C3 witness: a registered collector cancelling out of COLLECTING_PHOTOS
(and the other three cancellable states) with a one-photo draft. -/
theorem C3_cancel_behavior_witness :
    step ⟨12, 10, 2026⟩ 1
        ⟨⟨[], [], [(1, "Anna")]⟩, some (.nbPhotos, { photoIds := some ["p"] })⟩ (.text "Отмена")
      = ⟨⟨⟨[], [], [(1, "Anna")]⟩, none⟩, [],
         [idleKb (getRoleEnv ⟨[], [], [(1, "Anna")]⟩ 1)]⟩ ∧
    step ⟨12, 10, 2026⟩ 1
        ⟨⟨[], [], [(1, "Anna")]⟩, some (.nbManualDate, { photoIds := some ["p"] })⟩ (.text "Отмена")
      = ⟨⟨⟨[], [], [(1, "Anna")]⟩, none⟩, [],
         [idleKb (getRoleEnv ⟨[], [], [(1, "Anna")]⟩ 1)]⟩ := by
  have h := C3_cancel_behavior ⟨12, 10, 2026⟩ ⟨[], [], [(1, "Anna")]⟩ 1
    { photoIds := some ["p"] } (Or.inl (by decide))
  exact ⟨h.1, h.2.1⟩

/-- C3 (counterexample): `Отмена` sent in the NAMING state is not a
cancellation — no handler for it exists there, so `collector_name_entered`
stores it as the collector's name and advances to DATE_CHOICE instead of
discarding the draft. -/
theorem C3_counterexample_cancel_in_naming :
    (step ⟨12, 10, 2026⟩ 1
      ⟨⟨[], [], [(1, "Anna")]⟩, some (.nbName, { photoIds := some ["p"] })⟩
      (.text "Отмена")).sys.conv
    = some (.nbDateChoice, { photoIds := some ["p"], collectorName := some "Отмена" }) := by
  decide

/-! ### C8 — invalid manual dates -/

/-- C8 (amended): any text in the MANUAL_DATE state that neither parses as
a DD-MM-YYYY calendar date nor spells cancel is answered with a re-prompt,
leaving the state, the collected draft and the ledger unchanged — except
for the globally-registered flow-restart button `➕ Новая коробка`, which
restarts the intake flow and clears the photo list. -/
theorem C8_invalid_date_reprompt (today : Ymd) (uid : Int) (env : Env) (d : Draft) (t : String)
    (hparse : parseDMY (pyStrip t) = none)
    (hcancel : ¬ (lowerStr (pyStrip t) = "отмена"))
    (hbtn : ¬ (t = "➕ Новая коробка")) :
    (step today uid ⟨env, some (.nbManualDate, d)⟩ (.text t)).sys
      = ⟨env, some (.nbManualDate, d)⟩ ∧
    (step today uid ⟨env, some (.nbManualDate, d)⟩ (.text t)).creations = [] := by
  by_cases hstart : t = "/start"
  · subst hstart
    constructor
    · show (stepText today uid ⟨env, some (.nbManualDate, d)⟩ "/start").sys = _
      unfold stepText
      rw [if_pos rfl]
    · show (stepText today uid ⟨env, some (.nbManualDate, d)⟩ "/start").creations = _
      unfold stepText
      rw [if_pos rfl]
  · have key : stepTextState today uid ⟨env, some (.nbManualDate, d)⟩ t
        = ⟨⟨env, some (.nbManualDate, d)⟩, [], []⟩ := by
      simp only [stepTextState]
      rw [if_neg hcancel, hparse]
    constructor
    · show (stepText today uid ⟨env, some (.nbManualDate, d)⟩ t).sys = _
      rw [stepText_state today uid _ _ hstart hbtn, key]
    · show (stepText today uid ⟨env, some (.nbManualDate, d)⟩ t).creations = _
      rw [stepText_state today uid _ _ hstart hbtn, key]

/-- C8 witness: `31-02-2025` (February 31st) is rejected and the workflow
stays in MANUAL_DATE with the draft's photo list intact. -/
theorem C8_invalid_date_reprompt_witness :
    (step ⟨12, 10, 2026⟩ 1
      ⟨⟨[], [], [(1, "Anna")]⟩, some (.nbManualDate, { photoIds := some ["p"] })⟩
      (.text "31-02-2025")).sys
      = ⟨⟨[], [], [(1, "Anna")]⟩, some (.nbManualDate, { photoIds := some ["p"] })⟩ ∧
    (step ⟨12, 10, 2026⟩ 1
      ⟨⟨[], [], [(1, "Anna")]⟩, some (.nbManualDate, { photoIds := some ["p"] })⟩
      (.text "31-02-2025")).creations = [] :=
  C8_invalid_date_reprompt ⟨12, 10, 2026⟩ 1 ⟨[], [], [(1, "Anna")]⟩
    { photoIds := some ["p"] } "31-02-2025" (by decide) (by decide) (by decide)

/-- C8 (counterexample): the text `➕ Новая коробка` — not a parseable
date — does not re-prompt in MANUAL_DATE: the globally-registered
`new_box_entry` handler fires first, restarts the flow and resets the
collected photo list. -/
theorem C8_counterexample_restart_button :
    step ⟨12, 10, 2026⟩ 1
      ⟨⟨[], [], [(1, "Anna")]⟩,
       some (.nbManualDate, { photoIds := some ["p"], collectorName := some "Anna" })⟩
      (.text "➕ Новая коробка")
    = ⟨⟨⟨[], [], [(1, "Anna")]⟩,
        some (.nbPhotos, { photoIds := some [], collectorName := some "Anna" })⟩,
       [], [.photosReady]⟩ := by
  decide

end Botv3
